import Mathlib

/-!
Shallow embedding of the `editorjs-group-image` plugin (a multi-image gallery
block for a host rich-text editor) and proofs about its drag-and-drop and
layout behaviour.

JavaScript numbers are modelled as `ℚ` (all arithmetic the code performs on
them — halving widths, subtracting coordinates, dividing aspect ratios — is
exact rational arithmetic on the inputs we consider).  JavaScript
`Array.prototype.splice` deletion of one element at `i` is `List.eraseIdx i`
(both remove nothing when `i` is past the end); single-element insertion at
`i` clamps `i` to the array length, captured by `jsSpliceInsert`.
-/

namespace GroupImageSpec

/-- `ImageData` (src/types/interfaces.ts): one uploaded image record with
`url`, `name`, `size`, `type`, `width`, `height`, `ratio = width / height`. -/
structure ImageData where
  url : String
  name : String
  size : Nat
  type : String
  width : ℚ
  height : ℚ
  ratio : ℚ
deriving DecidableEq, Repr

instance : Inhabited ImageData := ⟨⟨"", "", 0, "", 0, 0, 0⟩⟩

/-- `GroupImageData` (src/types/interfaces.ts): a block's persisted state,
an ordered image list plus a caption. -/
structure GroupImageData where
  images : List ImageData
  caption : String
deriving DecidableEq, Repr

/-- JS `arr.splice(n, 0, a)`: inserts `a` at position `n`, clamping `n`
to the array length (appends when `n > arr.length`). -/
def jsSpliceInsert (l : List α) (n : Nat) (a : α) : List α :=
  List.insertIdx (min n l.length) a l

/-- The four drop-zone classifications produced by `Helpers.getDropType`. -/
inductive DropType where
  | top
  | bottom
  | left
  | right
deriving DecidableEq, Repr

/-- A DOM bounding client rect, as used by the geometry helpers. -/
structure Rect where
  left : ℚ
  top : ℚ
  width : ℚ
  height : ℚ
deriving DecidableEq, Repr

/-- `Helpers.getDropType` (src/utils/helpers.ts): signed offsets of the mouse
from the target's center; the vertical classification is chosen only when
`|deltaY| > |deltaX|` (strictly), otherwise the horizontal one. -/
def getDropType (mouseX mouseY : ℚ) (rect : Rect) : DropType :=
  let centerX := rect.left + rect.width / 2
  let centerY := rect.top + rect.height / 2
  let deltaX := mouseX - centerX
  let deltaY := mouseY - centerY
  if |deltaY| > |deltaX| then
    if deltaY < 0 then .top else .bottom
  else
    if deltaX < 0 then .left else .right

/-- `Helpers.getDropPosition` (src/utils/helpers.ts): the hovered element's
`dataset.index` if the mouse is left of its horizontal center, else that
index plus one. -/
def getDropPosition (mouseX : ℚ) (rect : Rect) (datasetIndex : Nat) : Nat :=
  if mouseX < rect.left + rect.width / 2 then datasetIndex else datasetIndex + 1

/-- `Helpers.determineDropIndex` (src/utils/helpers.ts): index of the first
rendered item whose horizontal center lies right of the mouse; the item
count if none does. -/
def determineDropIndex (mouseX : ℚ) (items : List Rect) : Nat :=
  match items.findIdx? (fun r => mouseX < r.left + r.width / 2) with
  | some i => i
  | none => items.length

/-- `columns[colIndex].push(imageData)`: appends `a` to the `i`-th inner
list. -/
def pushAt (cols : List (List α)) (i : Nat) (a : α) : List (List α) :=
  cols.set i (cols.getD i [] ++ [a])

/-- `Math.ceil(images.length / 3)`, the column count used by
`Helpers.organizeImagesIntoColumns`. -/
def columnCount (images : List ImageData) : Nat :=
  (images.length + 2) / 3

/-- `Helpers.organizeImagesIntoColumns` (src/utils/helpers.ts):
`columnCount = Math.ceil(images.length / 3)` empty buckets, then each image
is pushed into bucket `index % columnCount`. -/
def organizeImagesIntoColumns (images : List ImageData) : List (List ImageData) :=
  let columns : List (List ImageData) := List.replicate (columnCount images) []
  images.enum.foldl (fun cols p => pushAt cols (p.1 % columnCount images) p.2) columns

/-- The width style computed in `createImageWrapper` (src/index.ts lines
309–312): `ratio / totalAspectRatio * 100` percent when the block's total
aspect ratio is positive, else the `100%` fallback. -/
def widthPercentage (img : ImageData) (totalAspectRatio : ℚ) : ℚ :=
  if 0 < totalAspectRatio then img.ratio / totalAspectRatio * 100 else 100

/-- `totalAspectRatio` as computed in `renderImages` (src/index.ts lines
266–269): the sum of the block's image ratios. -/
def totalAspectRatio (images : List ImageData) : ℚ :=
  (images.map (·.ratio)).sum

/-- The static fields of `GroupImage` that make up the shared drag session
(src/index.ts lines 31–41): the dragged record, the origin instance
(modelled by a numeric instance identity), and the origin index. -/
structure DragSession where
  draggedImage : Option ImageData
  sourceInstance : Option Nat
  sourceIndex : Option Nat
deriving DecidableEq, Repr

/-- One observable call into the host editor's block API. -/
inductive EditorOp where
  | update (blockId : Nat) (data : GroupImageData)
  | delete (index : Int)
deriving DecidableEq, Repr

/-- Result of `handleExternalDrop`: both instances' image lists after the
drop, plus the host-editor calls made, in order. -/
structure ExternalDropResult where
  sourceImages : List ImageData
  targetImages : List ImageData
  ops : List EditorOp
deriving DecidableEq, Repr

/-- `GroupImage.handleExternalDrop` (src/index.ts lines 564–596): when the
target holds fewer than 3 images, splice the dragged record out of the
origin list at the recorded source index, splice it into the target list at
`dropPosition`, update the origin block, then the target block, and delete
the origin block when its list became empty; otherwise do nothing.
`sourceBlockId` is `sourceBlock.id`, `targetBlockId` the id of the block at
the current block index, `blockIndex` the origin block index carried by the
drag payload. -/
def handleExternalDrop (sourceBlockId targetBlockId : Nat) (blockIndex : Int)
    (sourceData targetData : GroupImageData)
    (draggedImage : ImageData) (sourceIndex : Nat)
    (dropPosition : Nat) : ExternalDropResult :=
  let sourceImages := sourceData.images
  let targetImages := targetData.images
  if targetImages.length < 3 then
    let sourceImages' := sourceImages.eraseIdx sourceIndex
    let targetImages' := jsSpliceInsert targetImages dropPosition draggedImage
    { sourceImages := sourceImages'
      targetImages := targetImages'
      ops := [.update sourceBlockId ⟨sourceImages', sourceData.caption⟩,
              .update targetBlockId ⟨targetImages', targetData.caption⟩] ++
             (if sourceImages'.length = 0 then [.delete blockIndex] else []) }
  else
    { sourceImages := sourceImages, targetImages := targetImages, ops := [] }

/-- `GroupImage.handleInternalDrop` (src/index.ts lines 549–556): splice the
image out at `sourceIndex`, splice it back in at `dropPosition`.  `none`
models the degenerate JS case where `sourceIndex` is out of range and the
destructured `movedImage` would be `undefined`. -/
def handleInternalDrop (images : List ImageData) (sourceIndex dropPosition : Nat) :
    Option (List ImageData) :=
  (images[sourceIndex]?).map fun movedImage =>
    jsSpliceInsert (images.eraseIdx sourceIndex) dropPosition movedImage

/-- Result of the block-level drop path: both image lists and the
host-editor calls. -/
structure BlockDropResult where
  sourceImages : List ImageData
  targetImages : List ImageData
  ops : List EditorOp
deriving DecidableEq, Repr

/-- `GroupImage.handleBlockDrop` (src/index.ts lines 669–692): when the
target block holds fewer than 3 images, compute the drop index from the
rendered items (their count and bounding rects; the list length when no
items are rendered), splice the dragged record in, splice it out of the
origin list, and update both blocks via `updateBlocks` — which addresses
the block at `currentIndex - 1` (id `prevBlockId`) with the origin data and
the current block (id `currentBlockId`) with the target data; otherwise do
nothing. -/
def handleBlockDrop (prevBlockId currentBlockId : Nat)
    (sourceData targetData : GroupImageData)
    (draggedImage : ImageData) (sourceIndex : Nat)
    (mouseX : ℚ) (itemRects : List Rect) : BlockDropResult :=
  let images := targetData.images
  if images.length < 3 then
    let dropIndex := if itemRects.length > 0 then determineDropIndex mouseX itemRects
                     else images.length
    let targetImages' := jsSpliceInsert images dropIndex draggedImage
    let sourceImages' := sourceData.images.eraseIdx sourceIndex
    { sourceImages := sourceImages'
      targetImages := targetImages'
      ops := [.update prevBlockId ⟨sourceImages', sourceData.caption⟩,
              .update currentBlockId ⟨targetImages', targetData.caption⟩] }
  else
    { sourceImages := sourceData.images, targetImages := images, ops := [] }

/-- Result of `onDropBlock`: both image lists, the host-editor calls, and
the drag-session statics after the handler ran. -/
structure DropBlockResult where
  sourceImages : List ImageData
  targetImages : List ImageData
  ops : List EditorOp
  session : DragSession
deriving DecidableEq, Repr

/-- `GroupImage.onDropBlock` (src/index.ts lines 645–663): returns
immediately when the drag originated from this very instance, or when the
session is not fully populated — in both cases without touching any list or
clearing the statics; otherwise runs `handleBlockDrop` and clears the
statics. -/
def onDropBlock (selfId : Nat) (session : DragSession)
    (prevBlockId currentBlockId : Nat)
    (sourceData targetData : GroupImageData)
    (mouseX : ℚ) (itemRects : List Rect) : DropBlockResult :=
  if session.sourceInstance = some selfId then
    { sourceImages := sourceData.images, targetImages := targetData.images,
      ops := [], session := session }
  else
    match session.draggedImage, session.sourceInstance with
    | some draggedImage, some _ =>
      let r := handleBlockDrop prevBlockId currentBlockId sourceData targetData
        draggedImage (session.sourceIndex.getD 0) mouseX itemRects
      { sourceImages := r.sourceImages, targetImages := r.targetImages,
        ops := r.ops, session := ⟨none, none, none⟩ }
    | _, _ =>
      { sourceImages := sourceData.images, targetImages := targetData.images,
        ops := [], session := session }

/-- A primitive JavaScript value appearing in the image records this code
builds: a string or a number. -/
inductive JSValue where
  | str (s : String)
  | num (q : ℚ)
deriving DecidableEq, Repr

/-- A JavaScript object literal, as a field-name/value association list. -/
abbrev JSObj := List (String × JSValue)

/-- The full seven-field object built for each file in
`FileHandler.handleFileChange` (src/modules/FileHandler.ts lines 61–69). -/
def imageToObj (img : ImageData) : JSObj :=
  [("url", .str img.url), ("size", .num img.size), ("name", .str img.name),
   ("type", .str img.type), ("width", .num img.width),
   ("height", .num img.height), ("ratio", .num img.ratio)]

/-- The `draggedImageData` literal built in `GroupImage.onDropNewBlock`
(src/index.ts lines 509–514): only `url`, `name`, `ratio` and `width` are
copied from the dragged record. -/
def draggedImageObj (img : ImageData) : JSObj :=
  [("url", .str img.url), ("name", .str img.name),
   ("ratio", .num img.ratio), ("width", .num img.width)]

/-- Result of `onDropNewBlock`: the origin list after removal, the inserted
new block (insertion index and its image objects) when one was created, the
origin-block deletion index when the origin emptied, and the session
statics afterwards. -/
structure NewBlockResult where
  sourceImages : List ImageData
  inserted : Option (Int × List JSObj)
  deleted : Option Int
  session : DragSession
deriving DecidableEq, Repr

/-- `GroupImage.onDropNewBlock` (src/index.ts lines 481–542): guard clauses
suppress no-op vertical drops, then the dragged record is removed from the
origin list, a new block holding only the four-field copy of the dragged
record is inserted at `droppedBlockIndex`, the origin block is deleted
(with the index adjusted for the insertion shift) when its list emptied,
and the drag statics are cleared.  Block indices are integers because the
`droppedBlockIndex - 1` comparison can fall below zero. -/
def onDropNewBlock (position : DropType) (blockIndex : Int) (droppedTargetIndex : Nat)
    (droppedBlockIndex : Int)
    (session : DragSession) (sourceImages : List ImageData) : NewBlockResult :=
  let unchanged : NewBlockResult :=
    { sourceImages := sourceImages, inserted := none, deleted := none, session := session }
  match session.draggedImage, session.sourceInstance with
  | some draggedImage, some _ =>
    if blockIndex = droppedBlockIndex ∧ session.sourceIndex = some droppedTargetIndex then
      unchanged
    else if sourceImages.length = 1 ∧ position = .top ∧ blockIndex = droppedBlockIndex - 1 then
      unchanged
    else if sourceImages.length = 1 ∧ position = .bottom ∧ blockIndex = droppedBlockIndex + 1 then
      unchanged
    else
      let updatedImages := sourceImages.eraseIdx (session.sourceIndex.getD 0)
      { sourceImages := updatedImages
        inserted := some (droppedBlockIndex, [draggedImageObj draggedImage])
        deleted := if updatedImages.length = 0 then
            some (if blockIndex > droppedBlockIndex then blockIndex + 1 else blockIndex)
          else none
        session := ⟨none, none, none⟩ }
  | _, _ => unchanged

/-- The drag payload envelope written at drag start (src/index.ts lines
357–364): the dragged record, its index, and the origin block index. -/
structure DragData where
  imageData : ImageData
  sourceIndex : Nat
  blockIndex : Int
deriving DecidableEq, Repr

/-- What `e.dataTransfer.getData("application/json")` followed by
`JSON.parse` yields at drop time: no payload stored (`getData` returns the
empty string), a non-empty string `JSON.parse` rejects, or a well-formed
envelope. -/
inductive TransferPayload where
  | missing
  | malformed
  | valid (d : DragData)
deriving DecidableEq, Repr

/-- Observable outcome of `GroupImage.onDrop` for the image lists. -/
inductive DropResult where
  /-- The handler returned through a guard; `thrown` records whether it
  exited through an uncaught `JSON.parse` exception instead of a plain
  `return`.  No list was touched either way. -/
  | noMutation (thrown : Bool)
  /-- The top/bottom branch ran `onDropNewBlock`. -/
  | newBlock (r : NewBlockResult)
  /-- The same-instance left/right branch ran `handleInternalDrop`. -/
  | internalMove (images : Option (List ImageData))
  /-- The cross-instance left/right branch ran `handleExternalDrop`. -/
  | externalMove (r : ExternalDropResult)
deriving DecidableEq, Repr

/-- `GroupImage.onDrop` (src/index.ts lines 424–472): aborts on a missing
payload, throws on a malformed one (the `JSON.parse` call is unguarded),
skips a same-instance drop onto the dragged image's own index, then
dispatches on the drop type recorded during dragover.  `currentBlockIndex`
is the host's current block index, `selfId` this instance's identity,
`mouseX`/`targetRect` the pointer and hovered element geometry, and
`targetIndex` the hovered image's index (also its `dataset.index`). -/
def onDrop (payload : TransferPayload) (session : DragSession) (selfId : Nat)
    (targetIndex : Nat) (dropType : DropType) (currentBlockIndex : Int)
    (mouseX : ℚ) (targetRect : Rect)
    (sourceBlockId targetBlockId : Nat)
    (sourceData targetData : GroupImageData) : DropResult :=
  match payload with
  | .missing => .noMutation false
  | .malformed => .noMutation true
  | .valid d =>
    if session.sourceInstance = some selfId ∧ d.sourceIndex = targetIndex then
      .noMutation false
    else
      let droppedBlockIndex :=
        if dropType = .bottom then currentBlockIndex + 1 else currentBlockIndex
      match dropType with
      | .top | .bottom =>
        .newBlock (onDropNewBlock dropType d.blockIndex targetIndex droppedBlockIndex
          session sourceData.images)
      | _ =>
        let dropPosition := getDropPosition mouseX targetRect targetIndex
        if session.sourceInstance = some selfId then
          .internalMove (handleInternalDrop targetData.images d.sourceIndex dropPosition)
        else
          match session.sourceInstance, session.draggedImage with
          | some _, some draggedImage =>
            .externalMove (handleExternalDrop sourceBlockId targetBlockId d.blockIndex
              sourceData targetData draggedImage (session.sourceIndex.getD 0) dropPosition)
          | _, _ => .noMutation false

/-- One observable action of `FileHandler.handleFileChange`. -/
inductive FileOp where
  | insertBlock (images : List ImageData)
  | consoleError
deriving DecidableEq, Repr

/-- `Promise.all` over per-file results: the whole batch rejects as soon as
any element rejects. -/
def promiseAll : List (Except Unit α) → Except Unit (List α)
  | [] => .ok []
  | .error e :: _ => .error e
  | .ok a :: rest => (promiseAll rest).map (a :: ·)

/-- `FileHandler.handleFileChange` (src/modules/FileHandler.ts lines
49–83): each selected file resolves to an image record or rejects when
`Helpers.getImageDimensions` fails to decode it; the records are awaited
with `Promise.all` inside a `try`, bucketed, and one block is inserted per
bucket — while the `catch` only logs to the console. -/
def handleFileChange (files : List (Except Unit ImageData)) : List FileOp :=
  match promiseAll files with
  | .ok imagesData => (organizeImagesIntoColumns imagesData).map (fun col => .insertBlock col)
  | .error _ => [.consoleError]

/-- Modelled from the spec's words for the drop-type classifier: the axis
with the (strictly) larger absolute offset wins, and a tie between the two
absolute offsets resolves to the vertical axis's classification. -/
def classifyByClaim (deltaX deltaY : ℚ) : DropType :=
  if |deltaY| > |deltaX| then (if deltaY < 0 then .top else .bottom)
  else if |deltaX| > |deltaY| then (if deltaX < 0 then .left else .right)
  else (if deltaY < 0 then .top else .bottom)

/-- The amended classifier: the axis with the strictly larger absolute
offset wins, and a tie resolves to the horizontal axis. -/
def classifyAmended (deltaX deltaY : ℚ) : DropType :=
  if |deltaY| > |deltaX| then (if deltaY < 0 then .top else .bottom)
  else if |deltaX| > |deltaY| then (if deltaX < 0 then .left else .right)
  else (if deltaX < 0 then .left else .right)

/-- The successfully decoded records of a batch, in selection order. -/
def okResults (files : List (Except Unit ImageData)) : List ImageData :=
  files.filterMap fun x => match x with | .ok a => some a | .error _ => none

/-- A sample image record used by concrete witnesses. -/
def imgA : ImageData := ⟨"urlA", "a.png", 100, "image/png", 4, 2, 2⟩

/-- A second sample image record. -/
def imgB : ImageData := ⟨"urlB", "b.png", 200, "image/png", 3, 1, 3⟩

/-- A third sample image record. -/
def imgC : ImageData := ⟨"urlC", "c.png", 300, "image/png", 8, 2, 4⟩

/-! ## General list lemmas used by several claims -/

theorem insertIdx_getElem_eraseIdx (l : List α) (i : Nat) (h : i < l.length) :
    (l.eraseIdx i).insertIdx i l[i] = l := by
  induction l generalizing i with
  | nil => simp at h
  | cons b t ih =>
    cases i with
    | zero => simp [List.eraseIdx, List.insertIdx]
    | succ i =>
      simp only [List.eraseIdx_cons_succ, List.insertIdx_succ_cons, List.getElem_cons_succ]
      rw [ih i (by simpa using h)]

theorem count_eraseIdx_add_one [BEq α] [LawfulBEq α] (l : List α) (i : Nat) (a : α)
    (h : l[i]? = some a) : (l.eraseIdx i).count a + 1 = l.count a := by
  induction l generalizing i with
  | nil => simp at h
  | cons b t ih =>
    cases i with
    | zero =>
      simp only [List.getElem?_cons_zero, Option.some_inj] at h
      simp [List.eraseIdx, List.count_cons, h]
    | succ i =>
      simp only [List.getElem?_cons_succ] at h
      simp only [List.eraseIdx_cons_succ, List.count_cons]
      have := ih i h
      omega

theorem count_insertIdx_self [BEq α] [LawfulBEq α] (l : List α) (n : Nat) (a : α)
    (h : n ≤ l.length) : (List.insertIdx n a l).count a = l.count a + 1 := by
  induction l generalizing n with
  | nil =>
    obtain rfl : n = 0 := by simpa using h
    simp [List.insertIdx]
  | cons b t ih =>
    cases n with
    | zero => simp [List.insertIdx, List.count_cons]
    | succ n =>
      simp only [List.insertIdx_succ_cons, List.count_cons]
      rw [ih n (by simpa using h)]
      omega

theorem jsSpliceInsert_getElem?_self (l : List α) (n : Nat) (a : α) (h : n ≤ l.length) :
    (jsSpliceInsert l n a)[n]? = some a := by
  rw [jsSpliceInsert, min_eq_left h]
  have hlt : n < (List.insertIdx n a l).length := by
    rw [List.length_insertIdx _ _ h]
    omega
  rw [List.getElem?_eq_getElem hlt, List.getElem_insertIdx_self _ _ _ h]

theorem promiseAll_ok_of_forall_ok (files : List (Except Unit ImageData))
    (h : ∀ x ∈ files, ∃ a, x = .ok a) : promiseAll files = .ok (okResults files) := by
  induction files with
  | nil => rfl
  | cons x rest ih =>
    obtain ⟨a, rfl⟩ := h x (by simp)
    rw [show promiseAll (.ok a :: rest) = (promiseAll rest).map (a :: ·) from rfl]
    rw [ih fun y hy => h y (by simp [hy])]
    rw [show okResults (.ok a :: rest) = a :: okResults rest from rfl]
    rfl

theorem promiseAll_error_of_mem (files : List (Except Unit ImageData))
    (h : Except.error () ∈ files) : promiseAll files = .error () := by
  induction files with
  | nil => simp at h
  | cons x rest ih =>
    cases x with
    | error e => rfl
    | ok a =>
      have hmem : Except.error () ∈ rest := by
        rcases List.mem_cons.mp h with h' | h'
        · exact absurd h' (by simp)
        · exact h'
      rw [show promiseAll (.ok a :: rest) = (promiseAll rest).map (a :: ·) from rfl,
        ih hmem]
      rfl

/-! ## Claim theorems -/

/-- C4: an internal (same-instance) left/right drop of the image at index
`i` whose computed insertion index equals that image's own current
insertion index `i` leaves the list unchanged in both order and
contents. -/
theorem internal_reorder_idempotent (images : List ImageData) (i : Nat)
    (h : i < images.length) :
    handleInternalDrop images i i = some images := by
  unfold handleInternalDrop
  rw [List.getElem?_eq_getElem h, Option.map_some']
  have hlen : (images.eraseIdx i).length = images.length - 1 := by
    rw [List.length_eraseIdx, if_pos h]
  have hmin : min i (images.eraseIdx i).length = i := by
    rw [hlen]; omega
  rw [jsSpliceInsert, hmin, insertIdx_getElem_eraseIdx images i h]

/-- Witness for C4 at a concrete two-image block. -/
theorem internal_reorder_idempotent_witness :
    handleInternalDrop [⟨"a", "a", 1, "image/png", 4, 2, 2⟩,
      ⟨"b", "b", 2, "image/png", 3, 1, 3⟩] 1 1 =
      some [⟨"a", "a", 1, "image/png", 4, 2, 2⟩, ⟨"b", "b", 2, "image/png", 3, 1, 3⟩] :=
  internal_reorder_idempotent
    [⟨"a", "a", 1, "image/png", 4, 2, 2⟩, ⟨"b", "b", 2, "image/png", 3, 1, 3⟩] 1
    (by decide)

/-- C5, counterexample: a pointer exactly at the element's center has equal
absolute offsets on both axes (a tie), so the claim demands the vertical
classification (`bottom`, since `deltaY = 0` is not negative), but
`getDropType` returns `right` — the tie goes to the horizontal axis. -/
theorem getDropType_tie_counterexample :
    getDropType 5 5 ⟨0, 0, 10, 10⟩ = .right ∧
    classifyByClaim (5 - (0 + 10 / 2)) (5 - (0 + 10 / 2)) = .bottom ∧
    DropType.right ≠ DropType.bottom := by
  refine ⟨by norm_num [getDropType], by norm_num [classifyByClaim], by decide⟩

/-- C5, amended: `getDropType` classifies by the axis with the strictly
larger absolute signed offset of the pointer from the element's center
(negative giving top/left, positive bottom/right), and a tie between the
two absolute offsets resolves to the HORIZONTAL axis (left or right). -/
theorem getDropType_eq_classifyAmended (mouseX mouseY : ℚ) (rect : Rect) :
    getDropType mouseX mouseY rect =
      classifyAmended (mouseX - (rect.left + rect.width / 2))
        (mouseY - (rect.top + rect.height / 2)) := by
  unfold getDropType classifyAmended
  by_cases hv : |mouseY - (rect.top + rect.height / 2)| >
      |mouseX - (rect.left + rect.width / 2)|
  · simp [hv]
  · simp only [hv, if_false]
    split <;> simp

/-- C10: a block-level drop whose drag originated from this very instance
is a complete no-op — image lists untouched, no host-editor call, and the
drag-session statics are left as they were (not cleared). -/
theorem onDropBlock_same_instance_noop (selfId : Nat) (session : DragSession)
    (prevBlockId currentBlockId : Nat) (sourceData targetData : GroupImageData)
    (mouseX : ℚ) (itemRects : List Rect)
    (h : session.sourceInstance = some selfId) :
    onDropBlock selfId session prevBlockId currentBlockId sourceData targetData
        mouseX itemRects =
      { sourceImages := sourceData.images, targetImages := targetData.images,
        ops := [], session := session } := by
  rw [onDropBlock, if_pos h]

/-- Witness for C10 with a populated session whose origin is the target. -/
theorem onDropBlock_same_instance_noop_witness :
    onDropBlock 7 ⟨some ⟨"a", "a", 1, "image/png", 4, 2, 2⟩, some 7, some 0⟩ 1 2
        ⟨[⟨"a", "a", 1, "image/png", 4, 2, 2⟩], "s"⟩ ⟨[], "t"⟩ 5 [] =
      { sourceImages := [⟨"a", "a", 1, "image/png", 4, 2, 2⟩], targetImages := [],
        ops := [],
        session := ⟨some ⟨"a", "a", 1, "image/png", 4, 2, 2⟩, some 7, some 0⟩ } :=
  onDropBlock_same_instance_noop 7
    ⟨some ⟨"a", "a", 1, "image/png", 4, 2, 2⟩, some 7, some 0⟩ 1 2
    ⟨[⟨"a", "a", 1, "image/png", 4, 2, 2⟩], "s"⟩ ⟨[], "t"⟩ 5 [] rfl

/-- C3: an attempted external move into a block whose image list already
holds 3 images — via the per-image left/right path (`handleExternalDrop`)
or the block-level path (`handleBlockDrop`) — is silently refused: neither
list is mutated and no host-editor call is made. -/
theorem capacity_guard_refuses_drop
    (sourceBlockId targetBlockId prevBlockId currentBlockId : Nat) (blockIndex : Int)
    (sourceData targetData : GroupImageData) (draggedImage : ImageData)
    (sourceIndex dropPosition : Nat) (mouseX : ℚ) (itemRects : List Rect)
    (hcap : targetData.images.length = 3) :
    handleExternalDrop sourceBlockId targetBlockId blockIndex sourceData targetData
        draggedImage sourceIndex dropPosition =
      { sourceImages := sourceData.images, targetImages := targetData.images, ops := [] } ∧
    handleBlockDrop prevBlockId currentBlockId sourceData targetData draggedImage
        sourceIndex mouseX itemRects =
      { sourceImages := sourceData.images, targetImages := targetData.images, ops := [] } := by
  constructor
  · rw [handleExternalDrop]
    rw [if_neg (by omega)]
  · rw [handleBlockDrop]
    rw [if_neg (by omega)]

/-- Witness for C3: a full three-image target block refuses the drop on
both paths. -/
theorem capacity_guard_refuses_drop_witness :
    handleExternalDrop 10 20 0 ⟨[imgA], "s"⟩ ⟨[imgA, imgB, imgC], "t"⟩ imgA 0 1 =
      { sourceImages := [imgA], targetImages := [imgA, imgB, imgC], ops := [] } ∧
    handleBlockDrop 11 21 ⟨[imgA], "s"⟩ ⟨[imgA, imgB, imgC], "t"⟩ imgA 0 5 [] =
      { sourceImages := [imgA], targetImages := [imgA, imgB, imgC], ops := [] } :=
  capacity_guard_refuses_drop 10 20 11 21 0 ⟨[imgA], "s"⟩ ⟨[imgA, imgB, imgC], "t"⟩
    imgA 0 1 5 [] rfl

/-- C9: for a non-empty block whose images all have positive aspect ratio,
the per-image width shares `ratio / totalAspectRatio * 100`, in exact
rational arithmetic, sum to exactly 100. -/
theorem width_shares_sum_100 (images : List ImageData) (hne : images ≠ [])
    (hpos : ∀ img ∈ images, 0 < img.ratio) :
    (images.map fun img => widthPercentage img (totalAspectRatio images)).sum = 100 := by
  have hT : 0 < totalAspectRatio images := by
    apply List.sum_pos
    · intro q hq
      obtain ⟨img, himg, rfl⟩ := List.mem_map.mp hq
      exact hpos img himg
    · simpa using hne
  have hmap : (images.map fun img => widthPercentage img (totalAspectRatio images)) =
      images.map fun img => img.ratio * (100 / totalAspectRatio images) := by
    apply List.map_congr_left
    intro img _
    rw [widthPercentage, if_pos hT]
    ring
  rw [hmap, List.sum_map_mul_right]
  rw [show (images.map fun img => img.ratio).sum = totalAspectRatio images from rfl]
  field_simp

/-- Witness for C9: a two-image block with ratios 2 and 3 has shares
40 and 60, summing to 100. -/
theorem width_shares_sum_100_witness :
    ([imgA, imgB].map fun img => widthPercentage img (totalAspectRatio [imgA, imgB])).sum
      = 100 :=
  width_shares_sum_100 [imgA, imgB] (by decide) (by decide)

/-- C7, counterexample: with a malformed (non-empty, `JSON.parse`-rejected)
drag payload, `onDrop` exits through an uncaught parse exception — the
abort is not silent — even though no list was mutated; this contradicts the
claim that every malformed-or-missing payload is silently absorbed. -/
theorem onDrop_malformed_counterexample :
    onDrop .malformed ⟨some imgA, some 0, some 0⟩ 1 0 .left 0 5 ⟨0, 0, 10, 10⟩ 0 1
        ⟨[imgA], "s"⟩ ⟨[], "t"⟩ = .noMutation true ∧
    DropResult.noMutation true ≠ DropResult.noMutation false :=
  ⟨rfl, by decide⟩

/-- C7, amended: a missing payload makes `onDrop` return silently with no
mutation; a malformed payload makes it exit through the unguarded
`JSON.parse` exception, still with no mutation of any image list, but not
silently. -/
theorem onDrop_bad_payload_no_mutation (session : DragSession) (selfId targetIndex : Nat)
    (dropType : DropType) (currentBlockIndex : Int) (mouseX : ℚ) (targetRect : Rect)
    (sourceBlockId targetBlockId : Nat) (sourceData targetData : GroupImageData) :
    onDrop .missing session selfId targetIndex dropType currentBlockIndex mouseX targetRect
        sourceBlockId targetBlockId sourceData targetData = .noMutation false ∧
    onDrop .malformed session selfId targetIndex dropType currentBlockIndex mouseX targetRect
        sourceBlockId targetBlockId sourceData targetData = .noMutation true :=
  ⟨rfl, rfl⟩

/-- C1: an external left/right drop into a block holding fewer than 3
images removes the dragged record from the origin list at its recorded
source index and inserts it into the target list at the computed drop
position; the total image count over the two blocks is unchanged; the
moved record (unique across the two blocks before the move) appears
exactly once afterwards, in the target list, at the drop position; both
blocks are updated in the host editor, origin first then target, and the
origin block is deleted exactly when its list became empty. -/
theorem external_drop_moves_record
    (sourceBlockId targetBlockId : Nat) (blockIndex : Int)
    (sourceData targetData : GroupImageData) (draggedImage : ImageData)
    (sourceIndex dropPosition : Nat)
    (hsrc : sourceData.images[sourceIndex]? = some draggedImage)
    (hcap : targetData.images.length < 3)
    (hpos : dropPosition ≤ targetData.images.length)
    (huniq : (sourceData.images ++ targetData.images).count draggedImage = 1) :
    let r := handleExternalDrop sourceBlockId targetBlockId blockIndex sourceData
      targetData draggedImage sourceIndex dropPosition
    r.sourceImages = sourceData.images.eraseIdx sourceIndex ∧
    r.targetImages[dropPosition]? = some draggedImage ∧
    r.sourceImages.length + r.targetImages.length =
      sourceData.images.length + targetData.images.length ∧
    r.sourceImages.count draggedImage = 0 ∧
    r.targetImages.count draggedImage = 1 ∧
    r.ops = [.update sourceBlockId ⟨r.sourceImages, sourceData.caption⟩,
             .update targetBlockId ⟨r.targetImages, targetData.caption⟩] ++
            (if r.sourceImages.length = 0 then [.delete blockIndex] else []) := by
  intro r
  have hidx : sourceIndex < sourceData.images.length := by
    rcases List.getElem?_eq_some.mp hsrc with ⟨h, _⟩
    exact h
  have hmin : min dropPosition targetData.images.length = dropPosition := min_eq_left hpos
  have hr : r = ⟨sourceData.images.eraseIdx sourceIndex,
      jsSpliceInsert targetData.images dropPosition draggedImage,
      [.update sourceBlockId ⟨sourceData.images.eraseIdx sourceIndex, sourceData.caption⟩,
       .update targetBlockId
         ⟨jsSpliceInsert targetData.images dropPosition draggedImage, targetData.caption⟩] ++
      (if (sourceData.images.eraseIdx sourceIndex).length = 0
       then [.delete blockIndex] else [])⟩ := by
    show handleExternalDrop _ _ _ _ _ _ _ _ = _
    rw [handleExternalDrop]
    rw [if_pos hcap]
  have hins : jsSpliceInsert targetData.images dropPosition draggedImage =
      List.insertIdx dropPosition draggedImage targetData.images := by
    rw [jsSpliceInsert, hmin]
  have hcnt_erase := count_eraseIdx_add_one sourceData.images sourceIndex draggedImage hsrc
  have hcnt_app : sourceData.images.count draggedImage +
      targetData.images.count draggedImage = 1 := by
    rw [← List.count_append]
    exact huniq
  refine ⟨by rw [hr], ?_, ?_, ?_, ?_, by rw [hr]⟩
  · rw [hr]
    show (jsSpliceInsert targetData.images dropPosition draggedImage)[dropPosition]? = _
    rw [hins]
    have hlt : dropPosition < (List.insertIdx dropPosition draggedImage targetData.images).length := by
      rw [List.length_insertIdx _ _ hpos]
      omega
    rw [List.getElem?_eq_getElem hlt, List.getElem_insertIdx_self _ _ _ hpos]
  · rw [hr]
    show (sourceData.images.eraseIdx sourceIndex).length +
        (jsSpliceInsert targetData.images dropPosition draggedImage).length = _
    rw [hins, List.length_eraseIdx, if_pos hidx, List.length_insertIdx _ _ hpos]
    omega
  · rw [hr]
    show (sourceData.images.eraseIdx sourceIndex).count draggedImage = 0
    omega
  · rw [hr]
    show (jsSpliceInsert targetData.images dropPosition draggedImage).count draggedImage = 1
    rw [hins, count_insertIdx_self _ _ _ hpos]
    omega

/-- Witness for C1: moving `imgA` out of a two-image origin into a
one-image target at position 1. -/
theorem external_drop_moves_record_witness :
    let r := handleExternalDrop 10 20 0 ⟨[imgA, imgB], "s"⟩ ⟨[imgC], "t"⟩ imgA 0 1
    r.sourceImages = ([imgA, imgB] : List ImageData).eraseIdx 0 ∧
    r.targetImages[1]? = some imgA ∧
    r.sourceImages.length + r.targetImages.length =
      ([imgA, imgB] : List ImageData).length + ([imgC] : List ImageData).length ∧
    r.sourceImages.count imgA = 0 ∧
    r.targetImages.count imgA = 1 ∧
    r.ops = [.update 10 ⟨r.sourceImages, "s"⟩, .update 20 ⟨r.targetImages, "t"⟩] ++
            (if r.sourceImages.length = 0 then [.delete 0] else []) :=
  external_drop_moves_record 10 20 0 ⟨[imgA, imgB], "s"⟩ ⟨[imgC], "t"⟩ imgA 0 1
    (by decide) (by decide) (by decide) (by decide)

/-- C6, counterexample: the top/bottom vertical-split path does not move
the record — `onDropNewBlock` builds a fresh four-field object for the new
block, and that object lacks the original record's `size` field (as well as
`type` and `height`), so the destination record does not carry all of the
original's fields unchanged. -/
theorem new_block_record_drops_fields_counterexample :
    (onDropNewBlock .bottom 0 0 1 ⟨some imgA, some 7, some 0⟩ [imgA]).inserted =
      some (1, [draggedImageObj imgA]) ∧
    (draggedImageObj imgA).lookup "size" = none ∧
    (imageToObj imgA).lookup "size" = some (.num 100) ∧
    (draggedImageObj imgA).lookup "size" ≠ (imageToObj imgA).lookup "size" := by
  refine ⟨by decide, rfl, rfl, by decide⟩

/-- C6, amended: the internal-reorder and external left/right paths insert
the dragged record itself — the destination slot holds the original record
with every field intact — while the top/bottom vertical-split path inserts
a fresh object carrying only the original's `url`, `name`, `ratio` and
`width`, and omitting `size`, `type` and `height`. -/
theorem moved_record_field_preservation :
    (∀ (images : List ImageData) (i pos : Nat), i < images.length → pos < images.length →
      ∃ l', handleInternalDrop images i pos = some l' ∧ l'[pos]? = images[i]?) ∧
    (∀ (sourceBlockId targetBlockId : Nat) (blockIndex : Int)
        (sourceData targetData : GroupImageData) (draggedImage : ImageData)
        (sourceIndex dropPosition : Nat),
      targetData.images.length < 3 → dropPosition ≤ targetData.images.length →
      (handleExternalDrop sourceBlockId targetBlockId blockIndex sourceData targetData
          draggedImage sourceIndex dropPosition).targetImages[dropPosition]? =
        some draggedImage) ∧
    (∀ (dragged : ImageData) (srcInst sIdx : Nat) (position : DropType)
        (blockIndex droppedBlockIndex : Int) (droppedTargetIndex : Nat)
        (sourceImages : List ImageData),
      ¬(blockIndex = droppedBlockIndex ∧ sIdx = droppedTargetIndex) →
      ¬(sourceImages.length = 1 ∧ position = .top ∧ blockIndex = droppedBlockIndex - 1) →
      ¬(sourceImages.length = 1 ∧ position = .bottom ∧ blockIndex = droppedBlockIndex + 1) →
      (onDropNewBlock position blockIndex droppedTargetIndex droppedBlockIndex
          ⟨some dragged, some srcInst, some sIdx⟩ sourceImages).inserted =
        some (droppedBlockIndex, [draggedImageObj dragged])) ∧
    (∀ img : ImageData,
      (draggedImageObj img).lookup "url" = some (.str img.url) ∧
      (draggedImageObj img).lookup "name" = some (.str img.name) ∧
      (draggedImageObj img).lookup "ratio" = some (.num img.ratio) ∧
      (draggedImageObj img).lookup "width" = some (.num img.width) ∧
      (draggedImageObj img).lookup "size" = none ∧
      (draggedImageObj img).lookup "type" = none ∧
      (draggedImageObj img).lookup "height" = none) := by
  refine ⟨?_, ?_, ?_, ?_⟩
  · intro images i pos hi hpos
    refine ⟨jsSpliceInsert (images.eraseIdx i) pos images[i], ?_, ?_⟩
    · rw [handleInternalDrop, List.getElem?_eq_getElem hi, Option.map_some']
    · rw [List.getElem?_eq_getElem hi]
      apply jsSpliceInsert_getElem?_self
      rw [List.length_eraseIdx, if_pos hi]
      omega
  · intro sourceBlockId targetBlockId blockIndex sourceData targetData draggedImage
      sourceIndex dropPosition hcap hpos
    have hr : (handleExternalDrop sourceBlockId targetBlockId blockIndex sourceData
        targetData draggedImage sourceIndex dropPosition).targetImages =
        jsSpliceInsert targetData.images dropPosition draggedImage := by
      rw [handleExternalDrop]
      rw [if_pos hcap]
    rw [hr]
    exact jsSpliceInsert_getElem?_self _ _ _ hpos
  · intro dragged srcInst sIdx position blockIndex droppedBlockIndex droppedTargetIndex
      sourceImages hg1 hg2 hg3
    have hg1' : ¬(blockIndex = droppedBlockIndex ∧
        (some sIdx : Option Nat) = some droppedTargetIndex) := by
      simpa using hg1
    rw [onDropNewBlock]
    dsimp only
    rw [if_neg hg1', if_neg hg2, if_neg hg3]
  · intro img
    exact ⟨rfl, rfl, rfl, rfl, rfl, rfl, rfl⟩

/-- Witness for C6 (amended): an internal move of the first image of a
two-image block to position 1 lands the very same record there. -/
theorem moved_record_field_preservation_witness :
    ∃ l', handleInternalDrop [imgA, imgB] 0 1 = some l' ∧
      l'[1]? = ([imgA, imgB] : List ImageData)[0]? :=
  moved_record_field_preservation.1 [imgA, imgB] 0 1 (by decide) (by decide)

/-- C8, counterexample: when one file of a three-file batch fails dimension
decoding, `handleFileChange` does not continue with the two surviving
records — the whole batch is dropped and only a console error is
produced. -/
theorem file_batch_counterexample :
    handleFileChange [.ok imgA, .error (), .ok imgB] = [.consoleError] ∧
    handleFileChange [.ok imgA, .error (), .ok imgB] ≠
      ((organizeImagesIntoColumns [imgA, imgB]).map fun col => .insertBlock col) := by
  refine ⟨rfl, by decide⟩

/-- C8, amended: file intake is atomic over dimension decoding — if every
file decodes, one block is inserted per round-robin bucket of the decoded
records, but if any file fails, the error is logged to the console and no
block at all is inserted. -/
theorem file_batch_atomic (files : List (Except Unit ImageData)) :
    ((∀ x ∈ files, ∃ a, x = .ok a) →
      handleFileChange files =
        ((organizeImagesIntoColumns (okResults files)).map fun col => .insertBlock col)) ∧
    (Except.error () ∈ files → handleFileChange files = [.consoleError]) := by
  constructor
  · intro h
    rw [handleFileChange, promiseAll_ok_of_forall_ok files h]
  · intro h
    rw [handleFileChange, promiseAll_error_of_mem files h]

/-- Witness for C8 (amended): a batch whose single file fails decoding
yields only the console error. -/
theorem file_batch_atomic_witness :
    handleFileChange [Except.error ()] = [.consoleError] :=
  (file_batch_atomic [Except.error ()]).2 (by simp)

/-! ## Round-robin bucketing lemmas (for the column layout) -/

theorem getD_pushAt_self (cols : List (List α)) (i : Nat) (a : α) (h : i < cols.length) :
    (pushAt cols i a).getD i [] = cols.getD i [] ++ [a] := by
  rw [pushAt, List.getD_eq_getElem?_getD, List.getElem?_set, if_pos rfl, if_pos h]
  rfl

theorem getD_pushAt_ne (cols : List (List α)) (i j : Nat) (a : α) (h : i ≠ j) :
    (pushAt cols i a).getD j [] = cols.getD j [] := by
  rw [pushAt, List.getD_eq_getElem?_getD, List.getElem?_set, if_neg h,
    ← List.getD_eq_getElem?_getD]

theorem length_foldl_pushAt (c : Nat) (ps : List (Nat × α)) (cols : List (List α)) :
    (ps.foldl (fun cs p => pushAt cs (p.1 % c) p.2) cols).length = cols.length := by
  induction ps generalizing cols with
  | nil => rfl
  | cons p ps ih =>
    rw [List.foldl_cons, ih, pushAt, List.length_set]

theorem getD_foldl_pushAt (c : Nat) (ps : List (Nat × α)) (cols : List (List α))
    (hlen : cols.length = c) (j : Nat) (hj : j < c) :
    (ps.foldl (fun cs p => pushAt cs (p.1 % c) p.2) cols).getD j [] =
      cols.getD j [] ++ (ps.filter fun p => p.1 % c = j).map Prod.snd := by
  induction ps generalizing cols with
  | nil => simp
  | cons p ps ih =>
    rw [List.foldl_cons, ih (pushAt cols (p.1 % c) p.2) (by rw [pushAt, List.length_set]; exact hlen)]
    by_cases hpj : p.1 % c = j
    · rw [hpj, getD_pushAt_self cols j p.2 (by omega), List.filter_cons,
        if_pos (by simpa using hpj)]
      simp
    · rw [getD_pushAt_ne cols _ j p.2 hpj, List.filter_cons, if_neg (by simpa using hpj)]

theorem sum_map_length_pushAt (cols : List (List α)) (i : Nat) (a : α)
    (h : i < cols.length) :
    ((pushAt cols i a).map List.length).sum = (cols.map List.length).sum + 1 := by
  induction cols generalizing i with
  | nil => simp at h
  | cons x xs ih =>
    cases i with
    | zero =>
      simp [pushAt]
      omega
    | succ i =>
      have hstep : pushAt (x :: xs) (i + 1) a = x :: pushAt xs i a := rfl
      rw [hstep, List.map_cons, List.map_cons, List.sum_cons, List.sum_cons,
        ih i (by simpa using h)]
      omega

theorem sum_map_length_foldl_pushAt (c : Nat) (hc : 0 < c) (ps : List (Nat × α))
    (cols : List (List α)) (hlen : cols.length = c) :
    ((ps.foldl (fun cs p => pushAt cs (p.1 % c) p.2) cols).map List.length).sum =
      (cols.map List.length).sum + ps.length := by
  induction ps generalizing cols with
  | nil => simp
  | cons p ps ih =>
    rw [List.foldl_cons, ih _ (by rw [pushAt, List.length_set]; exact hlen),
      sum_map_length_pushAt _ _ _ (by rw [hlen]; exact Nat.mod_lt _ hc), List.length_cons]
    omega

theorem length_filter_range_mod_le_three (N c j : Nat) (hc : 0 < c) (hN : N ≤ 3 * c) :
    ((List.range N).filter fun i => i % c = j).length ≤ 3 := by
  have hsub : ((List.range N).filter fun i => i % c = j) ⊆ [j, j + c, j + 2 * c] := by
    intro i hi
    rw [List.mem_filter, List.mem_range] at hi
    obtain ⟨hiN, hijb⟩ := hi
    have hij : i % c = j := by simpa using hijb
    have hdiv : c * (i / c) + i % c = i := Nat.div_add_mod i c
    obtain ⟨k, hk3, hi⟩ : ∃ k, k < 3 ∧ i = c * k + j := by
      refine ⟨i / c, ?_, ?_⟩
      · rw [Nat.div_lt_iff_lt_mul hc]
        omega
      · rw [← hij]
        exact hdiv.symm
    subst hi
    simp only [List.mem_cons, List.not_mem_nil, or_false]
    have hcase : k = 0 ∨ k = 1 ∨ k = 2 := by omega
    rcases hcase with h | h | h <;> subst h <;> omega
  have hnd : ((List.range N).filter fun i => i % c = j).Nodup :=
    (List.filter_sublist _).nodup (List.nodup_range N)
  have hle := (hnd.subperm hsub).length_le
  simpa using hle

theorem length_filter_enum_mod (images : List ImageData) (c j : Nat) :
    ((images.enum.filter fun p => p.1 % c = j).map Prod.snd).length =
      ((List.range images.length).filter fun i => i % c = j).length := by
  rw [List.length_map, ← List.enum_map_fst images, List.filter_map, List.length_map]
  rfl

/-- C2: for a non-empty image list, `organizeImagesIntoColumns` produces
exactly `ceil(N/3)` buckets; bucket `j` is precisely the input images whose
index is `≡ j (mod ceil(N/3))`, in input order; the image at index `i`
lands in bucket `i % ceil(N/3)`; the bucket sizes sum to `N` (every image
is placed exactly once); and no bucket holds more than 3 images. -/
theorem round_robin_bucketing (images : List ImageData) (hne : images ≠ []) :
    (organizeImagesIntoColumns images).length = columnCount images ∧
    (∀ j, j < columnCount images →
      (organizeImagesIntoColumns images).getD j [] =
        (images.enum.filter fun p => p.1 % columnCount images = j).map Prod.snd) ∧
    (∀ i (h : i < images.length),
      images[i] ∈ (organizeImagesIntoColumns images).getD (i % columnCount images) []) ∧
    ((organizeImagesIntoColumns images).map List.length).sum = images.length ∧
    (∀ col ∈ organizeImagesIntoColumns images, col.length ≤ 3) := by
  have hlp : 0 < images.length := List.length_pos.mpr hne
  have hc : 0 < columnCount images := by
    rw [columnCount]
    omega
  set c := columnCount images with hcdef
  have horg : organizeImagesIntoColumns images =
      images.enum.foldl (fun cols p => pushAt cols (p.1 % c) p.2) (List.replicate c []) := rfl
  have hlen0 : (List.replicate c ([] : List ImageData)).length = c := List.length_replicate c []
  have hlen : (organizeImagesIntoColumns images).length = c := by
    rw [horg, length_foldl_pushAt, hlen0]
  have hchar : ∀ j, j < c → (organizeImagesIntoColumns images).getD j [] =
      (images.enum.filter fun p => p.1 % c = j).map Prod.snd := by
    intro j hj
    rw [horg, getD_foldl_pushAt c _ _ hlen0 j hj]
    have hinit : (List.replicate c ([] : List ImageData)).getD j [] = [] := by
      rw [List.getD_eq_getElem?_getD, List.getElem?_replicate, if_pos hj]
      rfl
    rw [hinit, List.nil_append]
  refine ⟨hlen, hchar, ?_, ?_, ?_⟩
  · intro i h
    have hj : i % c < c := Nat.mod_lt _ hc
    rw [hchar _ hj]
    apply List.mem_map.mpr
    refine ⟨(i, images[i]), ?_, rfl⟩
    rw [List.mem_filter]
    refine ⟨List.getElem?_mem (n := i) ?_, by simp⟩
    rw [List.getElem?_enum, List.getElem?_eq_getElem h]
    rfl
  · rw [horg, sum_map_length_foldl_pushAt c hc _ _ hlen0, List.enum_length]
    simp
  · intro col hcol
    obtain ⟨jj, hjj, hget⟩ := List.mem_iff_getElem.mp hcol
    rw [hlen] at hjj
    have hD : (organizeImagesIntoColumns images).getD jj [] = col := by
      rw [List.getD_eq_getElem _ _ (by rw [hlen]; exact hjj)]
      exact hget
    rw [← hD, hchar jj hjj, length_filter_enum_mod]
    apply length_filter_range_mod_le_three _ _ _ hc
    rw [hcdef, columnCount]
    omega

/-- Witness for C2 at a concrete seven-image list: three buckets of sizes
3, 2 and 2. -/
theorem round_robin_bucketing_witness :
    (organizeImagesIntoColumns [imgA, imgB, imgC, imgA, imgB, imgC, imgA]).length =
      columnCount [imgA, imgB, imgC, imgA, imgB, imgC, imgA] ∧
    (∀ j, j < columnCount [imgA, imgB, imgC, imgA, imgB, imgC, imgA] →
      (organizeImagesIntoColumns [imgA, imgB, imgC, imgA, imgB, imgC, imgA]).getD j [] =
        (([imgA, imgB, imgC, imgA, imgB, imgC, imgA] : List ImageData).enum.filter
          fun p => p.1 % columnCount [imgA, imgB, imgC, imgA, imgB, imgC, imgA] = j).map
          Prod.snd) ∧
    (∀ i (h : i < ([imgA, imgB, imgC, imgA, imgB, imgC, imgA] : List ImageData).length),
      ([imgA, imgB, imgC, imgA, imgB, imgC, imgA] : List ImageData)[i] ∈
        (organizeImagesIntoColumns [imgA, imgB, imgC, imgA, imgB, imgC, imgA]).getD
          (i % columnCount [imgA, imgB, imgC, imgA, imgB, imgC, imgA]) []) ∧
    ((organizeImagesIntoColumns [imgA, imgB, imgC, imgA, imgB, imgC, imgA]).map
      List.length).sum = ([imgA, imgB, imgC, imgA, imgB, imgC, imgA] : List ImageData).length ∧
    (∀ col ∈ organizeImagesIntoColumns [imgA, imgB, imgC, imgA, imgB, imgC, imgA],
      col.length ≤ 3) :=
  round_robin_bucketing [imgA, imgB, imgC, imgA, imgB, imgC, imgA] (by decide)

end GroupImageSpec
